import Mathlib

/-!
Shallow embedding of the client-side reconciliation layer of the
kristory-launcher front-end (src/src/app/page.tsx and the settings dialog in
src/unnamed/part_001), together with theorems settling the frozen claims
about it.  Pure string utilities mirror the JavaScript string primitives the
source uses (`startsWith`, `includes`, `toLowerCase`, `replace(/[\\/]+$/,'')`),
stateful handlers are embedded as explicit state-passing functions, and the
asynchronous retry / confirmation loops are embedded as recursions over an
oracle giving the outcome of each network attempt.
-/

namespace KristoryLauncher

/-! ## String primitives (JavaScript `startsWith` / `includes` / `toLowerCase`) -/

/-- `charsMatch pat hay` is true when `pat` is an initial segment of `hay`
(JavaScript `hay.startsWith(pat)` on exploded strings). -/
def charsMatch : List Char → List Char → Bool
  | [], _ => true
  | _ :: _, [] => false
  | p :: ps, c :: cs => p == c && charsMatch ps cs

/-- `charsContain hay pat` is true when `pat` occurs as a contiguous substring
of `hay` (JavaScript `hay.includes(pat)` on exploded strings). -/
def charsContain : List Char → List Char → Bool
  | [], pat => pat.isEmpty
  | c :: rest, pat => charsMatch pat (c :: rest) || charsContain rest pat

/-- JavaScript `s.startsWith(pat)`. -/
def strStartsWith (s pat : String) : Bool := charsMatch pat.data s.data

/-- JavaScript `s.includes(pat)`. -/
def strIncludes (s pat : String) : Bool := charsContain s.data pat.data

/-- JavaScript `toLowerCase` restricted to the character ranges the launcher
actually searches: the classifier and the directory derivation only look for
ASCII patterns after lowering, and ASCII lowering agrees with the JavaScript
behaviour there. -/
def lowerChars (l : List Char) : List Char := l.map Char.toLower

/-- String-level lowering. -/
def strToLower (s : String) : String := ⟨lowerChars s.data⟩

/-! ## Error Classifier (page.tsx lines 243-266) -/

/-- Classification of a backend `status_text` by the UI. -/
inductive ErrorClass
  | javaEnvironment
  | genericError
  | informational
deriving DecidableEq

/-- the `isRealError` disjunction of page.tsx lines 247-252: a fixed set of
leading / contained substrings signalling a real error. -/
def isRealError (statusText : String) : Bool :=
  strStartsWith statusText "Ошибка:" ||
  strStartsWith statusText "Error:" ||
  strIncludes statusText "требуется Java" ||
  strIncludes statusText "не найдена" ||
  strIncludes statusText "не удалось" ||
  strIncludes statusText "Обнаружены изменения"

/-- the java-routing test of page.tsx line 255:
`statusText.toLowerCase().includes("java")`. -/
def containsJavaPhrase (statusText : String) : Bool :=
  strIncludes (strToLower statusText) "java"

/-- the effect-routing of page.tsx lines 254-265: only texts passing
`isRealError` raise an alert; among those, texts containing a Java phrase go
to the persistent Java modal, the rest to a transient destructive toast. -/
def classifyStatus (statusText : String) : ErrorClass :=
  if isRealError statusText then
    if containsJavaPhrase statusText then ErrorClass.javaEnvironment
    else ErrorClass.genericError
  else ErrorClass.informational

/-! ## Data model (page.tsx lines 46-82) -/

/-- an account entry of the launcher configuration (page.tsx lines 46-52);
the `type` field of the source is the constant tag `'ely.by'` and is omitted. -/
structure Account where
  uuid : String
  username : String
  accessToken : String
  clientToken : String
deriving DecidableEq

/-- `version_info` of `LauncherStatus` (page.tsx lines 58-61). -/
structure VersionInfo where
  minecraft : String
  fabric : String
deriving DecidableEq

/-- the launcher status entity (page.tsx lines 54-63). -/
structure LauncherStatus where
  is_processing : Bool
  status_text : String
  progress : Nat
  version_info : VersionInfo
  is_game_installed : Bool
deriving DecidableEq

/-- the server status entity (page.tsx lines 65-69); the optional player
counts may be absent. -/
structure ServerStatus where
  online : Bool
  players_online : Option Nat
  players_max : Option Nat
deriving DecidableEq

/-- game settings (page.tsx lines 71-75). -/
structure GameSettings where
  server_address : String
  enable_logs : Bool
  game_directory : String
deriving DecidableEq

/-- the configuration payload returned by `GET /api/config` (page.tsx lines
77-82).  `accounts = none` models a payload whose `accounts` field is missing
or not an array, which the fetcher's schema validation rejects;
`last_selected_uuid = none` models a JSON `null`. -/
structure RawConfig where
  accounts : Option (List Account)
  last_selected_uuid : Option String
  game_settings : GameSettings
deriving DecidableEq

/-- the slice of the `Home` component state that `fetchBackendData` touches
(page.tsx lines 88-97). -/
structure HomeState where
  accounts : List Account
  selectedAccount : Option Account
  launcherStatus : LauncherStatus
  launcherConfig : Option RawConfig
deriving DecidableEq

/-- the initial component state (page.tsx lines 88-97). -/
def initialHomeState : HomeState :=
  { accounts := []
    selectedAccount := none
    launcherStatus :=
      { is_processing := false
        status_text := "Подключение..."
        progress := 0
        version_info := { minecraft := "N/A", fabric := "N/A" }
        is_game_installed := false }
    launcherConfig := none }

/-! ## Bootstrap Retry Fetcher (page.tsx lines 145-184) -/

/-- what one `fetch` of `/api/config` can produce: a thrown network error,
a non-2xx response, or a 2xx response carrying a payload. -/
inductive FetchAttempt
  | networkError
  | httpError (status : Nat)
  | ok (config : RawConfig)
deriving DecidableEq

/-- the guarded part of the `try` block (page.tsx lines 147-155): an attempt
reaches the success path exactly when the response is 2xx and the payload has
an array-typed `accounts` field; the result carries the validated account
list. -/
def attemptResult : FetchAttempt → Option (RawConfig × List Account)
  | FetchAttempt.ok cfg =>
    match cfg.accounts with
    | some accts => some (cfg, accts)
    | none => none
  | FetchAttempt.networkError => none
  | FetchAttempt.httpError _ => none

/-- account selection on the success path (page.tsx lines 162-167): on a
non-empty list, the account found by `last_selected_uuid` or else the first
account; on an empty list, `null`. -/
def selectAccount (accts : List Account) (lastUuid : Option String) : Option Account :=
  match accts with
  | [] => none
  | a :: rest =>
    match (a :: rest).find? (fun acc =>
        match lastUuid with
        | some u => acc.uuid == u
        | none => false) with
    | some acc => some acc
    | none => some a

/-- the state update of the success path (page.tsx lines 157-167). -/
def applyFetchSuccess (cfg : RawConfig) (accts : List Account) (s : HomeState) : HomeState :=
  { s with
    launcherConfig := some cfg
    accounts := accts
    selectedAccount := selectAccount accts cfg.last_selected_uuid }

/-- observable outcome of one `fetchBackendData` call chain: the final
component state, the list of delays passed to `setTimeout` before each retry,
the number of fetch attempts made, whether `checkJavaVersion` was invoked,
and the configuration the chain succeeded with (if it did). -/
structure FetchOutcome where
  finalState : HomeState
  scheduledDelays : List Nat
  attemptsMade : Nat
  javaCheckTriggered : Bool
  succeededWith : Option RawConfig
deriving DecidableEq

/-- the outcome of an attempt that reaches the success path (the end of the
`try` block, page.tsx lines 157-170): the config seeds the dependent state
and `checkJavaVersion()` fires. -/
def successOutcome (cfg : RawConfig) (accts : List Account) (s : HomeState) :
    FetchOutcome :=
  { finalState := applyFetchSuccess cfg accts s
    scheduledDelays := []
    attemptsMade := 1
    javaCheckTriggered := true
    succeededWith := some cfg }

/-- the outcome of the terminal-failure branch (page.tsx lines 177-182,
`retries = 0`): the fixed error status text is set and accounts and selection
are cleared; `checkJavaVersion` does not fire. -/
def terminalOutcome (s : HomeState) : FetchOutcome :=
  { finalState :=
      { s with
        launcherStatus := { s.launcherStatus with status_text := "Ошибка API" }
        accounts := []
        selectedAccount := none }
    scheduledDelays := []
    attemptsMade := 1
    javaCheckTriggered := false
    succeededWith := none }

/-- `fetchBackendData(retries, delay)` (page.tsx lines 145-184) run against an
oracle giving each attempt's outcome; `idx` numbers the attempts from 0.  An
attempt that reaches the end of the `try` block yields `successOutcome`; a
failed attempt falls into the `catch`, which with `retries > 0` reschedules
the same call after `delay` with `(retries - 1, delay * 2)` and with
`retries = 0` settles into `terminalOutcome`. -/
def fetchBackendDataAux (oracle : Nat → FetchAttempt) (s : HomeState) :
    Nat → Nat → Nat → FetchOutcome
  | 0, idx, _delay =>
    match attemptResult (oracle idx) with
    | some (cfg, accts) => successOutcome cfg accts s
    | none => terminalOutcome s
  | r + 1, idx, delay =>
    match attemptResult (oracle idx) with
    | some (cfg, accts) => successOutcome cfg accts s
    | none =>
      let rest := fetchBackendDataAux oracle s r (idx + 1) (delay * 2)
      { rest with
        scheduledDelays := delay :: rest.scheduledDelays
        attemptsMade := rest.attemptsMade + 1 }

/-- `fetchBackendData()` with its default arguments `retries = 5`,
`delay = 500` (page.tsx line 145). -/
def fetchBackendData (oracle : Nat → FetchAttempt) (s : HomeState) : FetchOutcome :=
  fetchBackendDataAux oracle s 5 0 500

/-! ## Status Poller (page.tsx lines 208-240) -/

/-- one tick of `pollStatus` (page.tsx lines 209-218): a successful poll
replaces the launcher status wholesale; a failed poll (network error or
non-2xx) is only logged and the previous state is retained. -/
def pollStatusStep (prev : LauncherStatus) (result : Option LauncherStatus) :
    LauncherStatus :=
  match result with
  | some data => data
  | none => prev

/-- the degraded server state written by the failure branch of
`pollServerStatus` (page.tsx line 227): `{ online: false }` with no player
counts. -/
def offlineServerStatus : ServerStatus :=
  { online := false, players_online := none, players_max := none }

/-- one tick of `pollServerStatus` (page.tsx lines 219-229): a successful
poll replaces the server status; a failed poll collapses the state to the
explicit `{ online: false }` value. -/
def pollServerStatusStep (_prev : Option ServerStatus)
    (result : Option ServerStatus) : Option ServerStatus :=
  match result with
  | some data => some data
  | none => some offlineServerStatus

/-- a sequence of launcher-status poll ticks applied in order. -/
def runStatusPolls (init : LauncherStatus)
    (results : List (Option LauncherStatus)) : LauncherStatus :=
  results.foldl pollStatusStep init

/-- a sequence of server-status poll ticks applied in order (the state starts
as `null` before the first tick, page.tsx line 96). -/
def runServerPolls (init : Option ServerStatus)
    (results : List (Option ServerStatus)) : Option ServerStatus :=
  results.foldl pollServerStatusStep init

/-! ## Optimistic Mutation Coordinator (part_001 lines 213-227) -/

/-- a mod's `status` field. -/
inductive ModStatus
  | enabled
  | disabled
deriving DecidableEq

/-- a managed mod (part_001 lines 81-86). -/
structure Mod where
  filename : String
  name : String
  description : String
  status : ModStatus
deriving DecidableEq

/-- the optimistic update of `handleToggleMod` (part_001 line 215):
`mods.map(m => m.filename === filename ? {...m, status: ...} : m)`. -/
def toggleModOptimistic (mods : List Mod) (filename : String) (enabled : Bool) :
    List Mod :=
  mods.map (fun m =>
    if m.filename == filename then
      { m with status := if enabled then ModStatus.enabled else ModStatus.disabled }
    else m)

/-- the two mod-list states a `handleToggleMod` call passes through: the
optimistic in-flight list and the list after the backend call resolves. -/
structure ToggleOutcome where
  intermediate : List Mod
  final : List Mod
deriving DecidableEq

/-- `handleToggleMod` (part_001 lines 213-227): snapshot the list, apply the
optimistic update, then either keep it (2xx) or restore the snapshot verbatim
(non-2xx or network error). -/
def handleToggleMod (mods : List Mod) (filename : String) (enabled : Bool)
    (backendOk : Bool) : ToggleOutcome :=
  let originalMods := mods
  let newMods := toggleModOptimistic mods filename enabled
  { intermediate := newMods
    final := if backendOk then newMods else originalMods }

/-! ## Settings Synchronizer (part_001 lines 229-269) -/

/-- what one confirmation re-read of `/api/config` can produce: a rejected
fetch (network error — the awaited promise throws), a non-2xx response
(`configRes.ok` is false), or a 2xx payload whose
`config?.game_settings?.game_directory` is the given optional string.  The
two failure shapes behave differently in the loop: the loop body has no
try/catch, so a rejected fetch propagates to the outer catch and aborts the
whole save, while a non-2xx response merely skips the match check and lets
the loop continue. -/
inductive ReadResult
  | rejected
  | httpError (status : Nat)
  | ok (gameDirectory : Option String)
deriving DecidableEq

/-- whether the awaited re-read throws (part_001 line 242 inside the
uncaught `for` body): true exactly for a rejected fetch. -/
def readThrows : ReadResult → Bool
  | ReadResult.rejected => true
  | ReadResult.httpError _ => false
  | ReadResult.ok _ => false

/-- the match test of part_001 lines 243-245: the response must be 2xx
(`configRes.ok`) and
`config?.game_settings?.game_directory === settingsData.game_directory`. -/
def readMatches (r : ReadResult) (written : String) : Bool :=
  match r with
  | ReadResult.ok (some dir) => dir == written
  | ReadResult.ok none => false
  | ReadResult.httpError _ => false
  | ReadResult.rejected => false

/-- observable outcome of the confirmation loop: whether a read echoed the
written value, whether a rejected fetch threw out of the loop, how many
reads were issued, and how many 200ms waits were performed. -/
structure ConfirmOutcome where
  updated : Bool
  aborted : Bool
  readsMade : Nat
  waitsMade : Nat
deriving DecidableEq

/-- the confirmation loop of part_001 lines 240-251 (`for i in 0..4`): issue
the read; a rejected fetch throws out of the loop at once (no wait, save
aborted); a 2xx response echoing the written directory stops the loop with
`updated = true`; any other response (non-2xx, or 2xx with a different
value) is followed by a 200ms wait and the next iteration, up to `n` reads
in total. -/
def confirmLoop (reads : Nat → ReadResult) (written : String) :
    Nat → Nat → ConfirmOutcome
  | _, 0 => { updated := false, aborted := false, readsMade := 0, waitsMade := 0 }
  | i, n + 1 =>
    if readThrows (reads i) then
      { updated := false, aborted := true, readsMade := 1, waitsMade := 0 }
    else if readMatches (reads i) written then
      { updated := true, aborted := false, readsMade := 1, waitsMade := 0 }
    else
      let rest := confirmLoop reads written (i + 1) n
      { updated := rest.updated
        aborted := rest.aborted
        readsMade := rest.readsMade + 1
        waitsMade := rest.waitsMade + 1 }

/-- the `settingsKey` argument of `handleSaveSettings` (part_001 line 229). -/
inductive SettingsKey
  | javaSettings
  | gameSettings
deriving DecidableEq

/-- observable outcome of a `handleSaveSettings` call: whether the overall
operation succeeded, plus the confirmation reads and waits performed. -/
structure SaveOutcome where
  succeeded : Bool
  readsMade : Nat
  waitsMade : Nat
deriving DecidableEq

/-- `handleSaveSettings` (part_001 lines 229-269): a non-2xx write fails
immediately; a 2xx write of `game_settings` with a truthy `game_directory`
enters the 5-read confirmation loop, and the overall operation succeeds only
if a read echoed the written value — both a loop that throws (rejected
fetch) and a loop that runs out of reads end in the outer catch, via the
exception or via the `if (!updated) throw`; every other 2xx write succeeds
with no confirmation. -/
def handleSaveSettings (writeOk : Bool) (key : SettingsKey) (gameDir : String)
    (reads : Nat → ReadResult) : SaveOutcome :=
  if writeOk then
    if key == SettingsKey.gameSettings && gameDir != "" then
      let c := confirmLoop reads gameDir 0 5
      { succeeded := c.updated, readsMade := c.readsMade, waitsMade := c.waitsMade }
    else
      { succeeded := true, readsMade := 0, waitsMade := 0 }
  else
    { succeeded := false, readsMade := 0, waitsMade := 0 }

/-! ## Game-directory derivation (page.tsx lines 346-351, part_001 lines 304-309) -/

/-- a path separator as matched by the source's `[\\/]` character classes. -/
def isSep (c : Char) : Bool := c == '\\' || c == '/'

/-- `path.replace(/[\\/]+$/, '')`: strip every trailing separator. -/
def stripTrailingSepsL (l : List Char) : List Char :=
  (l.reverse.dropWhile isSep).reverse

/-- `path.endsWith('\\') || path.endsWith('/')`. -/
def endsWithSepL (l : List Char) : Bool :=
  match l.getLast? with
  | some c => isSep c
  | none => false

/-- `path.includes('\\')`. -/
def hasBackslashL (l : List Char) : Bool := l.any (fun c => c == '\\')

/-- the canonical sub-folder name appended by both derivations. -/
def kcName : List Char := "Kristory Client".data

/-- the lowered search pattern of the `/kristory client/i` tests. -/
def kcChars : List Char := "kristory client".data

/-- the substring test `/kristory client/i.test(s)` of page.tsx line 349. -/
def substrMatchCIL (l : List Char) : Bool := charsContain (lowerChars l) kcChars

/-- whether the character after a candidate occurrence is a component
boundary (`([\\/]|$)` in the regex of part_001 line 307). -/
def boundaryAfter : List Char → Bool
  | [] => true
  | c :: _ => isSep c

/-- scan for an occurrence of `kristory client` preceded by `([\\/]|^)` and
followed by `([\\/]|$)`; `prevOk` records whether the current position is
such a left boundary. -/
def componentScan : Bool → List Char → Bool
  | _, [] => false
  | prevOk, c :: rest =>
    (prevOk && charsMatch kcChars (c :: rest) &&
      boundaryAfter ((c :: rest).drop kcChars.length)) ||
    componentScan (isSep c) rest

/-- the component test `/([\\/]|^)Kristory Client([\\/]|$)/i.test(path)` of
part_001 line 307. -/
def componentMatchL (l : List Char) : Bool := componentScan true (lowerChars l)

/-- the derivation of `handleDownloadClick` (page.tsx lines 346-351): strip
trailing separators, keep the result if it already matches
`/kristory client/i`, else append a style-matched separator and the canonical
name. -/
def deriveDownloadL (p : List Char) : List Char :=
  let finalPath := stripTrailingSepsL p
  if substrMatchCIL finalPath then finalPath
  else finalPath ++ (if hasBackslashL finalPath then ['\\'] else ['/']) ++ kcName

/-- the derivation of `handleSelectGameDirectory` (part_001 lines 304-309):
keep the path if it has a `Kristory Client` component, else strip trailing
separators and append the canonical name, preceded by a style-matched
separator only when the original path did not already end in one. -/
def deriveSelectL (p : List Char) : List Char :=
  if componentMatchL p then p
  else
    stripTrailingSepsL p ++
      (if endsWithSepL p then []
       else if hasBackslashL p then ['\\'] else ['/']) ++
    kcName

/-- string-level wrapper of `deriveDownloadL`. -/
def deriveDownload (p : String) : String := ⟨deriveDownloadL p.data⟩

/-- string-level wrapper of `deriveSelectL`. -/
def deriveSelect (p : String) : String := ⟨deriveSelectL p.data⟩

/-! ## Claims about the Error Classifier -/

/-- C5: the Error Classifier maps `"Ошибка: требуется Java"` to the
java-environment class, `"Обнаружены изменения"` to the generic error class,
and `"Готов"` to the informational class. -/
theorem classifyStatus_examples :
    classifyStatus "Ошибка: требуется Java" = ErrorClass.javaEnvironment ∧
    classifyStatus "Обнаружены изменения" = ErrorClass.genericError ∧
    classifyStatus "Готов" = ErrorClass.informational :=
  ⟨by decide, by decide, by decide⟩

/-- C4, counterexample: the status text `"Загрузка Java"` contains a
Java-related phrase, yet the classifier leaves it informational rather than
routing it to the Java modal, because it matches no recognized error
marker — so "every status_text that contains a Java-related phrase is
classified as a java-environment error" is false on the code. -/
theorem classifyStatus_javaPhrase_cex :
    containsJavaPhrase "Загрузка Java" = true ∧
    classifyStatus "Загрузка Java" = ErrorClass.informational ∧
    ¬ classifyStatus "Загрузка Java" = ErrorClass.javaEnvironment :=
  ⟨by decide, by decide, by decide⟩

/-- C4, amended: among status texts matching a recognized error marker, those
containing a Java-related phrase are classified java-environment and those
without one generic; texts matching no marker are informational (no alert),
even when they contain a Java-related phrase. -/
theorem classifyStatus_marker_cases (t : String) :
    (isRealError t = true → containsJavaPhrase t = true →
      classifyStatus t = ErrorClass.javaEnvironment) ∧
    (isRealError t = true → containsJavaPhrase t = false →
      classifyStatus t = ErrorClass.genericError) ∧
    (isRealError t = false → classifyStatus t = ErrorClass.informational) := by
  refine ⟨fun h1 h2 => ?_, fun h1 h2 => ?_, fun h1 => ?_⟩
  · simp [classifyStatus, h1, h2]
  · simp [classifyStatus, h1, h2]
  · simp [classifyStatus, h1]

/-- witness for `classifyStatus_marker_cases` at a concrete error text
without a Java phrase. -/
theorem classifyStatus_marker_cases_witness :
    classifyStatus "Ошибка: сборка не найдена" = ErrorClass.genericError :=
  (classifyStatus_marker_cases "Ошибка: сборка не найдена").2.1
    (by decide) (by decide)

/-! ## Claims about the Optimistic Mutation Coordinator -/

/-- C3: if the backend call of `handleToggleMod` fails, the final in-memory
mod list is the entire prior snapshot restored verbatim, for every list,
filename and desired state. -/
theorem handleToggleMod_rollback (mods : List Mod) (filename : String)
    (enabled : Bool) :
    (handleToggleMod mods filename enabled false).final = mods := rfl

/-- C9: the optimistic update of `handleToggleMod` preserves the list's
length and order, preserves `filename`, `name` and `description` at every
position, leaves every mod whose filename differs from the argument entirely
unchanged, and changes at most the `status` field of a matching mod. -/
theorem toggleModOptimistic_frame (mods : List Mod) (f : String) (e : Bool) :
    (toggleModOptimistic mods f e).length = mods.length ∧
    (∀ i : Nat, ((toggleModOptimistic mods f e)[i]?).map Mod.filename
        = (mods[i]?).map Mod.filename) ∧
    (∀ i : Nat, ((toggleModOptimistic mods f e)[i]?).map Mod.name
        = (mods[i]?).map Mod.name) ∧
    (∀ i : Nat, ((toggleModOptimistic mods f e)[i]?).map Mod.description
        = (mods[i]?).map Mod.description) ∧
    (∀ (i : Nat) (m : Mod), mods[i]? = some m → (m.filename == f) = false →
        (toggleModOptimistic mods f e)[i]? = some m) ∧
    (∀ (i : Nat) (m : Mod), mods[i]? = some m → (m.filename == f) = true →
        (toggleModOptimistic mods f e)[i]? =
          some { m with
                 status := if e then ModStatus.enabled else ModStatus.disabled }) := by
  refine ⟨by simp [toggleModOptimistic], ?_, ?_, ?_, ?_, ?_⟩
  · intro i
    rw [toggleModOptimistic, List.getElem?_map]
    cases h : mods[i]? with
    | none => rfl
    | some m => rcases hf : m.filename == f <;> simp_all
  · intro i
    rw [toggleModOptimistic, List.getElem?_map]
    cases h : mods[i]? with
    | none => rfl
    | some m => rcases hf : m.filename == f <;> simp_all
  · intro i
    rw [toggleModOptimistic, List.getElem?_map]
    cases h : mods[i]? with
    | none => rfl
    | some m => rcases hf : m.filename == f <;> simp_all
  · intro i m hm hf
    have hne : m.filename ≠ f := by simpa using hf
    rw [toggleModOptimistic, List.getElem?_map, hm]
    simp [hne]
  · intro i m hm hf
    have heq : m.filename = f := by simpa using hf
    rw [toggleModOptimistic, List.getElem?_map, hm]
    simp [heq]

/-- witness for `toggleModOptimistic_frame`: in a concrete two-mod list, the
mod not named by the toggle is untouched by the optimistic update. -/
theorem toggleModOptimistic_frame_witness :
    (toggleModOptimistic
        [{ filename := "sodium.jar", name := "Sodium",
           description := "renderer", status := ModStatus.enabled },
         { filename := "lithium.jar", name := "Lithium",
           description := "optimizer", status := ModStatus.disabled }]
        "lithium.jar" true)[0]? =
      some { filename := "sodium.jar", name := "Sodium",
             description := "renderer", status := ModStatus.enabled } :=
  (toggleModOptimistic_frame
      [{ filename := "sodium.jar", name := "Sodium",
         description := "renderer", status := ModStatus.enabled },
       { filename := "lithium.jar", name := "Lithium",
         description := "optimizer", status := ModStatus.disabled }]
      "lithium.jar" true).2.2.2.2.1 0
    { filename := "sodium.jar", name := "Sodium",
      description := "renderer", status := ModStatus.enabled }
    (by decide) (by decide)

/-! ## Claims about the Status Poller -/

/-- C6: the two polling loops diverge asymmetrically on failure — a sequence
of failed launcher-status polls leaves the previously held `LauncherStatus`
unchanged, while any poll sequence ending in a failed server-status poll
leaves the server state at exactly `{ online: false }` (whose `online` field
is `false`, never a stale `online: true`). -/
theorem pollers_failure_asymmetry (prev : LauncherStatus)
    (sp : Option ServerStatus) (rs : List (Option LauncherStatus))
    (ss : List (Option ServerStatus)) :
    ((∀ r ∈ rs, r = none) → runStatusPolls prev rs = prev) ∧
    runServerPolls sp (ss ++ [none]) = some offlineServerStatus ∧
    offlineServerStatus.online = false := by
  refine ⟨?_, ?_, rfl⟩
  · intro h
    induction rs with
    | nil => rfl
    | cons r rest ih =>
      have hr : r = none := h r (List.mem_cons_self r rest)
      subst hr
      exact ih fun x hx => h x (List.mem_cons_of_mem _ hx)
  · rw [runServerPolls, List.foldl_append]
    rfl

/-- witness for `pollers_failure_asymmetry`: two consecutive failed
launcher-status polls retain the initial status, and a successful server poll
followed by a failed one ends at the degraded offline state. -/
theorem pollers_failure_asymmetry_witness :
    runStatusPolls initialHomeState.launcherStatus [none, none]
        = initialHomeState.launcherStatus ∧
    runServerPolls none
        ([some { online := true, players_online := some 7, players_max := some 20 }]
          ++ [none])
      = some offlineServerStatus :=
  ⟨(pollers_failure_asymmetry initialHomeState.launcherStatus none [none, none] []).1
      (by decide),
   (pollers_failure_asymmetry initialHomeState.launcherStatus none []
      [some { online := true, players_online := some 7, players_max := some 20 }]).2.1⟩

/-! ## Claims about the Settings Synchronizer -/

/-- a read that echoes the written value is a 2xx response, so it cannot
also be a rejected fetch. -/
theorem readThrows_eq_false_of_matches (r : ReadResult) (w : String)
    (h : readMatches r w = true) : readThrows r = false := by
  cases r with
  | rejected => exact nomatch h
  | httpError st => rfl
  | ok dir => rfl

/-- the confirmation loop on a window of `n` reads that all respond without
throwing and all miss: it exits unconfirmed after exactly `n` reads and `n`
waits. -/
theorem confirmLoop_never (reads : Nat → ReadResult) (w : String) :
    ∀ n i, (∀ k, k < n → readThrows (reads (i + k)) = false) →
      (∀ k, k < n → readMatches (reads (i + k)) w = false) →
      confirmLoop reads w i n
        = { updated := false, aborted := false, readsMade := n, waitsMade := n } := by
  intro n
  induction n with
  | zero => intro i _ _; rfl
  | succ m ih =>
    intro i ht hm
    have ht0 : readThrows (reads i) = false := by
      simpa using ht 0 (Nat.succ_pos m)
    have hm0 : readMatches (reads i) w = false := by
      simpa using hm 0 (Nat.succ_pos m)
    have hrest := ih (i + 1)
      (fun k hk => by
        have := ht (k + 1) (Nat.succ_lt_succ hk)
        rwa [show i + (k + 1) = i + 1 + k by omega] at this)
      (fun k hk => by
        have := hm (k + 1) (Nat.succ_lt_succ hk)
        rwa [show i + (k + 1) = i + 1 + k by omega] at this)
    simp [confirmLoop, ht0, hm0, hrest]

/-- the confirmation loop stops at the first matching read: if read `j`
(0-based) is the first to echo the written value and no earlier read threw,
it exits confirmed after `j + 1` reads and `j` waits. -/
theorem confirmLoop_firstMatch (reads : Nat → ReadResult) (w : String) :
    ∀ n i j, j < n → readMatches (reads (i + j)) w = true →
      (∀ k, k < j → readThrows (reads (i + k)) = false ∧
        readMatches (reads (i + k)) w = false) →
      confirmLoop reads w i n
        = { updated := true, aborted := false, readsMade := j + 1, waitsMade := j } := by
  intro n
  induction n with
  | zero => intro i j hj; exact absurd hj (Nat.not_lt_zero j)
  | succ m ih =>
    intro i j hj hmatch hbefore
    cases j with
    | zero =>
      have h0 : readMatches (reads i) w = true := by simpa using hmatch
      have ht0 : readThrows (reads i) = false :=
        readThrows_eq_false_of_matches (reads i) w h0
      simp [confirmLoop, ht0, h0]
    | succ j' =>
      obtain ⟨ht0', hm0'⟩ := hbefore 0 (Nat.succ_pos j')
      have ht0 : readThrows (reads i) = false := by simpa using ht0'
      have hm0 : readMatches (reads i) w = false := by simpa using hm0'
      have hrest := ih (i + 1) j' (by omega)
        (by rwa [show i + 1 + j' = i + (j' + 1) by omega])
        (fun k hk => by
          have := hbefore (k + 1) (Nat.succ_lt_succ hk)
          rwa [show i + (k + 1) = i + 1 + k by omega] at this)
      simp [confirmLoop, ht0, hm0, hrest]

/-- a rejected fetch aborts the confirmation loop: if read `j` (0-based)
throws and every earlier read responded without echoing, the loop ends
unconfirmed and aborted after only `j + 1` reads and `j` waits. -/
theorem confirmLoop_abort (reads : Nat → ReadResult) (w : String) :
    ∀ n i j, j < n → readThrows (reads (i + j)) = true →
      (∀ k, k < j → readThrows (reads (i + k)) = false ∧
        readMatches (reads (i + k)) w = false) →
      confirmLoop reads w i n
        = { updated := false, aborted := true, readsMade := j + 1, waitsMade := j } := by
  intro n
  induction n with
  | zero => intro i j hj; exact absurd hj (Nat.not_lt_zero j)
  | succ m ih =>
    intro i j hj hthrow hbefore
    cases j with
    | zero =>
      have h0 : readThrows (reads i) = true := by simpa using hthrow
      simp [confirmLoop, h0]
    | succ j' =>
      obtain ⟨ht0', hm0'⟩ := hbefore 0 (Nat.succ_pos j')
      have ht0 : readThrows (reads i) = false := by simpa using ht0'
      have hm0 : readMatches (reads i) w = false := by simpa using hm0'
      have hrest := ih (i + 1) j' (by omega)
        (by rwa [show i + 1 + j' = i + (j' + 1) by omega])
        (fun k hk => by
          have := hbefore (k + 1) (Nat.succ_lt_succ hk)
          rwa [show i + (k + 1) = i + 1 + k by omega] at this)
      simp [confirmLoop, ht0, hm0, hrest]

/-- C2, counterexample: a backend that never echoes the written value
because every re-read is rejected at the network level makes the save of a
concrete directory fail after exactly 1 read and no 200ms wait — the
rejected fetch inside the uncaught `for` body throws to the outer catch — so
"the synchronizer re-reads exactly 5 times spaced 200ms apart" is false for
this never-echoing save. -/
theorem handleSaveSettings_neverEcho_cex :
    handleSaveSettings true SettingsKey.gameSettings
        "C:\\Games\\Kristory Client" (fun _ => ReadResult.rejected)
      = { succeeded := false, readsMade := 1, waitsMade := 0 } ∧
    ¬ (handleSaveSettings true SettingsKey.gameSettings
        "C:\\Games\\Kristory Client" (fun _ => ReadResult.rejected)).readsMade
      = 5 :=
  ⟨by decide, by decide⟩

/-- C2, amended: after a 2xx write of `game_settings` with a non-empty
`game_directory`, the synchronizer re-reads the configuration up to 5 times
with a 200ms wait after each read that responds without echoing the written
value: if every re-read responds (2xx or non-2xx) and none echoes the value,
the save fails after exactly 5 reads and 5 waits despite the 2xx
acknowledgment; it succeeds as soon as read `j` echoes the value, after
`j + 1` reads; and a re-read rejected at the network level aborts the save
(failing it) immediately, after only `j + 1` reads and `j` waits. -/
theorem handleSaveSettings_confirm (d : String) (reads : Nat → ReadResult)
    (hd : d ≠ "") :
    ((∀ i, i < 5 → readThrows (reads i) = false) →
      (∀ i, i < 5 → readMatches (reads i) d = false) →
      handleSaveSettings true SettingsKey.gameSettings d reads
        = { succeeded := false, readsMade := 5, waitsMade := 5 }) ∧
    (∀ j, j < 5 → readMatches (reads j) d = true →
      (∀ i, i < j → readThrows (reads i) = false ∧ readMatches (reads i) d = false) →
      handleSaveSettings true SettingsKey.gameSettings d reads
        = { succeeded := true, readsMade := j + 1, waitsMade := j }) ∧
    (∀ j, j < 5 → readThrows (reads j) = true →
      (∀ i, i < j → readThrows (reads i) = false ∧ readMatches (reads i) d = false) →
      handleSaveSettings true SettingsKey.gameSettings d reads
        = { succeeded := false, readsMade := j + 1, waitsMade := j }) := by
  refine ⟨?_, ?_, ?_⟩
  · intro hthrow hall
    have hloop := confirmLoop_never reads d 5 0
      (fun k hk => by simpa using hthrow k hk)
      (fun k hk => by simpa using hall k hk)
    simp [handleSaveSettings, hd, hloop]
  · intro j hj hm hb
    have hloop := confirmLoop_firstMatch reads d 5 0 j hj (by simpa using hm)
      fun k hk => by simpa using hb k hk
    simp [handleSaveSettings, hd, hloop]
  · intro j hj hm hb
    have hloop := confirmLoop_abort reads d 5 0 j hj (by simpa using hm)
      fun k hk => by simpa using hb k hk
    simp [handleSaveSettings, hd, hloop]

/-- witness for `handleSaveSettings_confirm`: a backend whose every re-read
responds non-2xx (so the loop keeps going) and hence never echoes the
written directory makes the save of a concrete directory fail after exactly
5 reads and 5 waits. -/
theorem handleSaveSettings_confirm_witness :
    handleSaveSettings true SettingsKey.gameSettings
        "C:\\Games\\Kristory Client" (fun _ => ReadResult.httpError 503)
      = { succeeded := false, readsMade := 5, waitsMade := 5 } :=
  (handleSaveSettings_confirm "C:\\Games\\Kristory Client"
      (fun _ => ReadResult.httpError 503) (by decide)).1
    (fun _ _ => rfl) (fun _ _ => rfl)

/-! ## Claims about the Bootstrap Retry Fetcher -/

set_option maxRecDepth 4000

/-- C1: when every attempt of a `fetchBackendData(5, 500)` run fails, the
delays scheduled before the retry attempts are exactly
`[500, 1000, 2000, 4000, 8000]` — so the delay before retry attempt `n`
(1-based) is `500 * 2 ^ (n - 1)` and exactly 5 retry attempts follow the
initial one (6 fetch attempts in total, i.e. no more than 5 attempts precede
the terminal failing one) — and the terminal failure sets the launcher
status text to the fixed string `"Ошибка API"` while clearing the account
list and the selected account. -/
theorem fetchBackendData_allFail (oracle : Nat → FetchAttempt) (s : HomeState)
    (hfail : ∀ i, attemptResult (oracle i) = none) :
    (fetchBackendData oracle s).scheduledDelays = [500, 1000, 2000, 4000, 8000] ∧
    (fetchBackendData oracle s).scheduledDelays.length = 5 ∧
    (∀ n, 1 ≤ n → n ≤ 5 →
      (fetchBackendData oracle s).scheduledDelays[n - 1]?
        = some (500 * 2 ^ (n - 1))) ∧
    (fetchBackendData oracle s).attemptsMade = 6 ∧
    (fetchBackendData oracle s).finalState.launcherStatus.status_text
      = "Ошибка API" ∧
    (fetchBackendData oracle s).finalState.accounts = [] ∧
    (fetchBackendData oracle s).finalState.selectedAccount = none := by
  have hmain : fetchBackendData oracle s =
      { finalState :=
          { s with
            launcherStatus := { s.launcherStatus with status_text := "Ошибка API" }
            accounts := []
            selectedAccount := none }
        scheduledDelays := [500, 1000, 2000, 4000, 8000]
        attemptsMade := 6
        javaCheckTriggered := false
        succeededWith := none } := by
    simp only [fetchBackendData, fetchBackendDataAux, hfail, terminalOutcome]
  rw [hmain]
  refine ⟨rfl, rfl, ?_, rfl, rfl, rfl, rfl⟩
  intro n h1 h5
  interval_cases n <;> rfl

/-- witness for `fetchBackendData_allFail` against an oracle whose every
attempt is a network error, starting from the initial component state. -/
theorem fetchBackendData_allFail_witness :
    (fetchBackendData (fun _ => FetchAttempt.networkError)
        initialHomeState).scheduledDelays = [500, 1000, 2000, 4000, 8000] ∧
    (fetchBackendData (fun _ => FetchAttempt.networkError)
        initialHomeState).finalState.launcherStatus.status_text = "Ошибка API" :=
  ⟨(fetchBackendData_allFail (fun _ => FetchAttempt.networkError)
      initialHomeState (fun _ => rfl)).1,
   (fetchBackendData_allFail (fun _ => FetchAttempt.networkError)
      initialHomeState (fun _ => rfl)).2.2.2.2.1⟩

/-- the java check fires exactly when some attempt in the retry window
reaches the success path. -/
theorem fetchBackendDataAux_javaCheck (oracle : Nat → FetchAttempt)
    (s : HomeState) :
    ∀ retries idx delay,
      (fetchBackendDataAux oracle s retries idx delay).javaCheckTriggered = true ↔
        ∃ i, i ≤ retries ∧ attemptResult (oracle (idx + i)) ≠ none := by
  intro retries
  induction retries with
  | zero =>
    intro idx delay
    cases h : attemptResult (oracle idx) with
    | some v =>
      obtain ⟨cfg, accts⟩ := v
      simp only [fetchBackendDataAux, h]
      constructor
      · intro _
        exact ⟨0, Nat.le_refl 0, by rw [Nat.add_zero, h]; exact fun hc => nomatch hc⟩
      · intro _; trivial
    | none =>
      simp only [fetchBackendDataAux, h]
      constructor
      · intro ht; exact nomatch ht
      · rintro ⟨i, hi, hne⟩
        interval_cases i
        rw [Nat.add_zero] at hne
        exact absurd h hne
  | succ r ih =>
    intro idx delay
    cases h : attemptResult (oracle idx) with
    | some v =>
      obtain ⟨cfg, accts⟩ := v
      simp only [fetchBackendDataAux, h]
      constructor
      · intro _
        exact ⟨0, Nat.zero_le _, by rw [Nat.add_zero, h]; exact fun hc => nomatch hc⟩
      · intro _; trivial
    | none =>
      have hstep : (fetchBackendDataAux oracle s (r + 1) idx delay).javaCheckTriggered
          = (fetchBackendDataAux oracle s r (idx + 1) (delay * 2)).javaCheckTriggered := by
        simp only [fetchBackendDataAux, h]
      rw [hstep, ih (idx + 1) (delay * 2)]
      constructor
      · rintro ⟨i, hi, hne⟩
        exact ⟨i + 1, Nat.succ_le_succ hi,
          by rwa [show idx + (i + 1) = idx + 1 + i by omega]⟩
      · rintro ⟨i, hi, hne⟩
        cases i with
        | zero =>
          rw [Nat.add_zero] at hne
          exact absurd h hne
        | succ i' =>
          refine ⟨i', Nat.le_of_succ_le_succ hi, ?_⟩
          rw [show idx + 1 + i' = idx + (i' + 1) by omega]
          exact hne

/-- C7: `checkJavaVersion` is triggered by `fetchBackendData` if and only if
some attempt of the run (at most the 6 attempts the retry budget allows)
succeeds, including its schema validation; it is never invoked when every
attempt fails, in particular not on the terminal failure path. -/
theorem checkJava_iff_fetchSuccess (oracle : Nat → FetchAttempt) (s : HomeState) :
    (fetchBackendData oracle s).javaCheckTriggered = true ↔
      ∃ i, i ≤ 5 ∧ attemptResult (oracle i) ≠ none := by
  rw [fetchBackendData, fetchBackendDataAux_javaCheck oracle s 5 0 500]
  constructor
  · rintro ⟨i, hi, hne⟩
    exact ⟨i, hi, by rwa [Nat.zero_add] at hne⟩
  · rintro ⟨i, hi, hne⟩
    exact ⟨i, hi, by rwa [Nat.zero_add]⟩

/-- an attempt that reaches the success path carries a configuration whose
`accounts` field is the validated array. -/
theorem attemptResult_accounts {a : FetchAttempt} {cfg : RawConfig}
    {accts : List Account} (h : attemptResult a = some (cfg, accts)) :
    cfg.accounts = some accts := by
  cases a with
  | networkError => exact nomatch h
  | httpError st => exact nomatch h
  | ok c =>
    cases hc : c.accounts with
    | none => rw [attemptResult, hc] at h; exact nomatch h
    | some l =>
      rw [attemptResult, hc] at h
      injection h with he
      rw [Prod.mk.injEq] at he
      obtain ⟨he1, he2⟩ := he
      subst he1
      subst he2
      exact hc

/-- a run whose `succeededWith` reports a configuration ended on the success
path: its final state is the success-path update for that configuration's
validated account list. -/
theorem fetchBackendDataAux_success (oracle : Nat → FetchAttempt) (s : HomeState) :
    ∀ retries idx delay cfg,
      (fetchBackendDataAux oracle s retries idx delay).succeededWith = some cfg →
      ∃ accts, cfg.accounts = some accts ∧
        (fetchBackendDataAux oracle s retries idx delay).finalState
          = applyFetchSuccess cfg accts s := by
  intro retries
  induction retries with
  | zero =>
    intro idx delay cfg hs
    cases h : attemptResult (oracle idx) with
    | some v =>
      obtain ⟨cfg', accts'⟩ := v
      simp only [fetchBackendDataAux, h] at hs ⊢
      injection hs with he
      subst he
      exact ⟨accts', attemptResult_accounts h, rfl⟩
    | none =>
      simp only [fetchBackendDataAux, h] at hs
      exact nomatch hs
  | succ r ih =>
    intro idx delay cfg hs
    cases h : attemptResult (oracle idx) with
    | some v =>
      obtain ⟨cfg', accts'⟩ := v
      simp only [fetchBackendDataAux, h] at hs ⊢
      injection hs with he
      subst he
      exact ⟨accts', attemptResult_accounts h, rfl⟩
    | none =>
      simp only [fetchBackendDataAux, h] at hs ⊢
      exact ih (idx + 1) (delay * 2) cfg hs

/-- C10: after a successful configuration fetch, the selected account is the
first account whose uuid equals `last_selected_uuid` when one exists,
otherwise the head of the fetched account list, and `none` (no dangling
selection) when that list is empty — `List.head?` being `none` exactly on
the empty list. -/
theorem fetchSuccess_selection (oracle : Nat → FetchAttempt) (s : HomeState)
    (cfg : RawConfig) (accts : List Account)
    (hsucc : (fetchBackendData oracle s).succeededWith = some cfg)
    (hacc : cfg.accounts = some accts) :
    (fetchBackendData oracle s).finalState.accounts = accts ∧
    (fetchBackendData oracle s).finalState.selectedAccount =
      (match accts.find? (fun acc =>
          match cfg.last_selected_uuid with
          | some u => acc.uuid == u
          | none => false) with
       | some acc => some acc
       | none => accts.head?) := by
  obtain ⟨accts', hacc', hfs⟩ :=
    fetchBackendDataAux_success oracle s 5 0 500 cfg hsucc
  rw [hacc] at hacc'
  injection hacc' with he
  subst he
  rw [fetchBackendData, hfs]
  refine ⟨rfl, ?_⟩
  show selectAccount accts cfg.last_selected_uuid = _
  cases accts with
  | nil => rfl
  | cons a rest =>
    rw [selectAccount]
    cases hf : (a :: rest).find? (fun acc =>
        match cfg.last_selected_uuid with
        | some u => acc.uuid == u
        | none => false) with
    | some acc => simp [hf]
    | none => simp [hf, List.head?]

/-- witness for `fetchSuccess_selection`: a first-attempt success whose
payload holds two accounts and a `last_selected_uuid` naming the second
selects that second account. -/
theorem fetchSuccess_selection_witness :
    (fetchBackendData (fun _ => FetchAttempt.ok
        { accounts := some
            [{ uuid := "u1", username := "alice",
               accessToken := "at1", clientToken := "ct1" },
             { uuid := "u2", username := "bob",
               accessToken := "at2", clientToken := "ct2" }]
          last_selected_uuid := some "u2"
          game_settings :=
            { server_address := "", enable_logs := false, game_directory := "" } })
        initialHomeState).finalState.selectedAccount =
      some { uuid := "u2", username := "bob",
             accessToken := "at2", clientToken := "ct2" } :=
  ((fetchSuccess_selection (fun _ => FetchAttempt.ok
        { accounts := some
            [{ uuid := "u1", username := "alice",
               accessToken := "at1", clientToken := "ct1" },
             { uuid := "u2", username := "bob",
               accessToken := "at2", clientToken := "ct2" }]
          last_selected_uuid := some "u2"
          game_settings :=
            { server_address := "", enable_logs := false, game_directory := "" } })
      initialHomeState
      { accounts := some
          [{ uuid := "u1", username := "alice",
             accessToken := "at1", clientToken := "ct1" },
           { uuid := "u2", username := "bob",
             accessToken := "at2", clientToken := "ct2" }]
        last_selected_uuid := some "u2"
        game_settings :=
          { server_address := "", enable_logs := false, game_directory := "" } }
      [{ uuid := "u1", username := "alice",
         accessToken := "at1", clientToken := "ct1" },
       { uuid := "u2", username := "bob",
         accessToken := "at2", clientToken := "ct2" }]
      (by decide) rfl).2).trans (by decide)

/-! ## Claims about the game-directory derivation -/

/-- a list is an initial segment of itself followed by anything. -/
theorem charsMatch_append (l r : List Char) : charsMatch l (l ++ r) = true := by
  induction l with
  | nil => rfl
  | cons p ps ih => simp [charsMatch, ih]

/-- the empty pattern is contained in every list. -/
theorem charsContain_nil (l : List Char) : charsContain l [] = true := by
  cases l with
  | nil => rfl
  | cons c rest => rfl

/-- containment is preserved by prepending. -/
theorem charsContain_append_left (s t pat : List Char)
    (h : charsContain t pat = true) : charsContain (s ++ t) pat = true := by
  induction s with
  | nil => simpa using h
  | cons c cs ih => simp [charsContain, ih]

/-- a pattern is contained in itself followed by anything. -/
theorem charsContain_self (pat r : List Char) :
    charsContain (pat ++ r) pat = true := by
  cases pat with
  | nil => simpa using charsContain_nil r
  | cons p ps =>
    have h := charsMatch_append (p :: ps) r
    rw [List.cons_append] at h
    simp [charsContain, h]

/-- appending the canonical sub-folder name always yields a path whose
lowering contains the lowered canonical name. -/
theorem charsContain_lower_append_name (y : List Char) :
    charsContain (lowerChars (y ++ kcName)) kcChars = true := by
  have hl : lowerChars (y ++ kcName) = lowerChars y ++ kcChars := by
    rw [lowerChars, List.map_append]
    have : List.map Char.toLower kcName = kcChars := by decide
    rw [this]
    rfl
  rw [hl]
  have hself : charsContain kcChars kcChars = true := by
    have := charsContain_self kcChars []
    rwa [List.append_nil] at this
  exact charsContain_append_left (lowerChars y) kcChars kcChars hself

/-- a matched component occurrence is in particular a substring
occurrence. -/
theorem componentScan_contain :
    ∀ (l : List Char) (b : Bool), componentScan b l = true →
      charsContain l kcChars = true := by
  intro l
  induction l with
  | nil => intro b h; exact nomatch h
  | cons c rest ih =>
    intro b h
    rw [componentScan] at h
    rcases Bool.or_eq_true_iff.mp h with h1 | h2
    · have hm : charsMatch kcChars (c :: rest) = true := by
        rcases Bool.and_eq_true_iff.mp h1 with ⟨h3, _⟩
        exact (Bool.and_eq_true_iff.mp h3).2
      rw [charsContain, hm, Bool.true_or]
    · rw [charsContain, ih (isSep c) h2, Bool.or_true]

/-- `dropWhile` is idempotent. -/
theorem dropWhile_dropWhile_self {α : Type} (p : α → Bool) (l : List α) :
    List.dropWhile p (List.dropWhile p l) = List.dropWhile p l := by
  induction l with
  | nil => rfl
  | cons a t ih =>
    cases h : p a with
    | true => simp [List.dropWhile_cons, h, ih]
    | false => simp [List.dropWhile_cons, h]

/-- stripping trailing separators is idempotent. -/
theorem stripTrailingSepsL_idem (l : List Char) :
    stripTrailingSepsL (stripTrailingSepsL l) = stripTrailingSepsL l := by
  rw [stripTrailingSepsL, stripTrailingSepsL, List.reverse_reverse,
    dropWhile_dropWhile_self]

/-- a list not ending in a separator is unchanged by the stripping. -/
theorem stripTrailingSepsL_eq_self (l : List Char)
    (h : endsWithSepL l = false) : stripTrailingSepsL l = l := by
  cases hr : l.reverse with
  | nil =>
    have hnil : l = [] := by
      have := congrArg List.reverse hr
      rwa [List.reverse_reverse] at this
    subst hnil
    rfl
  | cons c t =>
    have hlast : l.getLast? = some c := by
      rw [← List.head?_reverse, hr]
      rfl
    have hc : isSep c = false := by
      rw [endsWithSepL, hlast] at h
      exact h
    rw [stripTrailingSepsL, hr, List.dropWhile_cons, hc]
    simp only [Bool.false_eq_true, if_false]
    have hl : l = (c :: t).reverse := by
      have := congrArg List.reverse hr
      rwa [List.reverse_reverse] at this
    exact hl.symm

/-- a path ending in the canonical name does not end in a separator. -/
theorem endsWithSepL_append_name (x : List Char) :
    endsWithSepL (x ++ kcName) = false := by
  have hlast : (x ++ kcName).getLast? = kcName.getLast? :=
    List.getLast?_append_of_ne_nil x (by decide)
  rw [endsWithSepL, hlast]
  rfl

/-- C8, counterexample: the two client-side game-directory derivations
disagree — on the trailing-separator input `"C:\Games\"` the download
derivation appends a separator and the canonical name while the select
derivation concatenates the name without a separator (and is not even
idempotent there), and on `"D:\old kristory clients"` the download
derivation keeps the path while the select derivation appends the canonical
name — so "the derivations agree on every input" (and the unconditional
separator-appending and idempotence it asserts) is false on the code. -/
theorem derive_directory_cex :
    deriveDownload "C:\\Games\\" = "C:\\Games\\Kristory Client" ∧
    deriveSelect "C:\\Games\\" = "C:\\GamesKristory Client" ∧
    ¬ deriveDownload "C:\\Games\\" = deriveSelect "C:\\Games\\" ∧
    ¬ deriveSelect (deriveSelect "C:\\Games\\") = deriveSelect "C:\\Games\\" ∧
    deriveDownload "D:\\old kristory clients" = "D:\\old kristory clients" ∧
    ¬ deriveSelect "D:\\old kristory clients" = "D:\\old kristory clients" :=
  ⟨by decide, by decide, by decide, by decide, by decide, by decide⟩

/-- C8, amended: both derivations always yield a path containing the
canonical sub-folder name case-insensitively, and the download derivation is
idempotent; the two derivations agree on every input that does not end in a
path separator and on which the download derivation's substring test and the
select derivation's path-component test give the same verdict. -/
theorem derive_directory_amended (p : String) :
    substrMatchCIL (deriveDownload p).data = true ∧
    substrMatchCIL (deriveSelect p).data = true ∧
    deriveDownload (deriveDownload p) = deriveDownload p ∧
    (endsWithSepL p.data = false →
      substrMatchCIL p.data = componentMatchL p.data →
      deriveDownload p = deriveSelect p) := by
  refine ⟨?_, ?_, ?_, ?_⟩
  · show substrMatchCIL (deriveDownloadL p.data) = true
    rw [deriveDownloadL]
    cases hm : substrMatchCIL (stripTrailingSepsL p.data) with
    | true => simpa using hm
    | false =>
      simp only [Bool.false_eq_true, if_false]
      rw [substrMatchCIL]
      exact charsContain_lower_append_name _
  · show substrMatchCIL (deriveSelectL p.data) = true
    rw [deriveSelectL]
    cases hc : componentMatchL p.data with
    | true =>
      simp only [if_true]
      exact componentScan_contain (lowerChars p.data) true hc
    | false =>
      simp only [Bool.false_eq_true, if_false]
      rw [substrMatchCIL]
      exact charsContain_lower_append_name _
  · show deriveDownload ⟨deriveDownloadL p.data⟩ = ⟨deriveDownloadL p.data⟩
    rw [deriveDownload]
    refine congrArg String.mk ?_
    cases hm : substrMatchCIL (stripTrailingSepsL p.data) with
    | true =>
      have hq : deriveDownloadL p.data = stripTrailingSepsL p.data := by
        rw [deriveDownloadL, hm]
        simp
      rw [hq, deriveDownloadL, stripTrailingSepsL_idem, hm]
      simp
    | false =>
      have hq : deriveDownloadL p.data
          = stripTrailingSepsL p.data ++
            (if hasBackslashL (stripTrailingSepsL p.data) then ['\\'] else ['/']) ++
            kcName := by
        rw [deriveDownloadL, hm]
        simp
      rw [hq, deriveDownloadL]
      have hstrip : stripTrailingSepsL
          (stripTrailingSepsL p.data ++
            (if hasBackslashL (stripTrailingSepsL p.data) then ['\\'] else ['/']) ++
            kcName)
          = stripTrailingSepsL p.data ++
            (if hasBackslashL (stripTrailingSepsL p.data) then ['\\'] else ['/']) ++
            kcName :=
        stripTrailingSepsL_eq_self _ (endsWithSepL_append_name _)
      rw [hstrip]
      have hsub : substrMatchCIL
          (stripTrailingSepsL p.data ++
            (if hasBackslashL (stripTrailingSepsL p.data) then ['\\'] else ['/']) ++
            kcName) = true := by
        rw [substrMatchCIL]
        exact charsContain_lower_append_name _
      rw [hsub]
      simp
  · intro hE hEq
    have hs : stripTrailingSepsL p.data = p.data := stripTrailingSepsL_eq_self _ hE
    refine congrArg String.mk ?_
    show deriveDownloadL p.data = deriveSelectL p.data
    rw [deriveDownloadL, deriveSelectL, hs, ← hEq, hE]
    cases hm : substrMatchCIL p.data <;> simp [hm]

/-- witness for `derive_directory_amended`: on the concrete input
`"C:\Games"` — no trailing separator, both occurrence tests false — the two
derivations produce the same path. -/
theorem derive_directory_amended_witness :
    deriveDownload "C:\\Games" = deriveSelect "C:\\Games" :=
  (derive_directory_amended "C:\\Games").2.2.2 (by decide) (by decide)

end KristoryLauncher
